import Mathlib

deriving instance DecidableEq for Except

/-!
Shallow embedding of `src/homework_01/log_analyzer.py`, the nginx access-log
analyzer.  Python floats are modelled by `ℚ`, Python `str`/`bytes` objects by
`List Char`, dictionaries by insertion-ordered association lists, and raised
exceptions by `Except PyError`.  Only the pipeline core is embedded
(file selection, line reading, line parsing, aggregation, report building);
logging, JSON serialization and the CLI are I/O glue outside the claims.
-/

namespace LogAnalyzer

/-- The Python exceptions the embedded code can raise. -/
inductive PyError where
  | typeError
  | indexError
  | valueError
  | zeroDivisionError
  | fileNotFoundError
  | runtimeError
deriving Repr, DecidableEq

/-- `exOk e` is `true` exactly when `e` carries a value (no exception raised). -/
def exOk {α : Type} (e : Except PyError α) : Bool :=
  match e with
  | .ok _ => true
  | .error _ => false

/-- One line yielded by iterating the opened log file handle:
`text` models a Python `str` (the `gzip.open(..., 'rt')` path),
`bytes` models a Python `bytes` object (iterating the `open(..., 'rb')`
handle directly); both carry the line's characters. -/
inductive Line where
  | text (chars : List Char)
  | bytes (chars : List Char)
deriving Repr, DecidableEq

/-- The record `parse_log_line` builds: `{'url': ..., 'request_time': ...}`. -/
structure LogRecord where
  url : List Char
  request_time : ℚ
deriving Repr, DecidableEq

/-- Python `s.split(sep)` for a one-character separator `sep`: splits at every
occurrence and keeps empty fields (`''.split(' ') == ['']`). -/
def splitChar (c : Char) : List Char → List (List Char)
  | [] => [[]]
  | x :: xs =>
    let r := splitChar c xs
    if x = c then [] :: r
    else
      match r with
      | [] => [[x]]
      | h :: t => (x :: h) :: t

/-- Python `str.strip()` as used by `float()`: drop whitespace on both ends. -/
def pyStrip (l : List Char) : List Char :=
  ((l.dropWhile Char.isWhitespace).reverse.dropWhile Char.isWhitespace).reverse

/-- Decimal value of a digit list (most significant first). -/
def natOfDigits (cs : List Char) : ℕ :=
  cs.foldl (fun n c => 10 * n + (c.toNat - 48)) 0

/-- Models the Python builtin `float(s)` on plain decimal notation: optional
surrounding whitespace, an optional sign, digits with at most one decimal
point and at least one digit.  (Exponent, `inf` and `nan` forms do not occur
in nginx request-time fields and are left out of the model.)  `none` models
a raised `ValueError`. -/
def pyFloat (cs : List Char) : Option ℚ :=
  let t := pyStrip cs
  let sb : ℚ × List Char :=
    match t with
    | '-' :: r => (-1, r)
    | '+' :: r => (1, r)
    | _ => (1, t)
  match splitChar '.' sb.2 with
  | [ip] =>
      if ip ≠ [] ∧ ip.all Char.isDigit = true then
        some (sb.1 * natOfDigits ip)
      else none
  | [ip, fp] =>
      if (ip ≠ [] ∨ fp ≠ []) ∧ ip.all Char.isDigit = true ∧ fp.all Char.isDigit = true then
        some (sb.1 * ((natOfDigits ip : ℚ) + (natOfDigits fp : ℚ) / (10 : ℚ) ^ fp.length))
      else none
  | _ => none

/-- `parse_log_line(line)`: `line.split(' ')`, URL from field 7, request time
from the last field via `float`.  On a `bytes` line, `line.split(' ')` raises
`TypeError` (Python `bytes.split` requires a `bytes` separator, not `str`).
On a `str` line, `parts[7]` raises `IndexError` when there are fewer than 8
fields; `float(parts[-1])` raises `ValueError` when the last field is not a
number.  The broad `except` in `process_logs` catches all three. -/
def parse_log_line (line : Line) : Except PyError LogRecord :=
  match line with
  | .bytes _ => .error .typeError
  | .text cs =>
    let parts := splitChar ' ' cs
    if parts.length < 8 then .error .indexError
    else
      match pyFloat (parts.getLastD []) with
      | none => .error .valueError
      | some t => .ok ⟨parts.getD 7 [], t⟩

/-- A log file on disk: its name and the text lines of its (decompressed,
decoded) content.  I/O is modelled away: `textLines` is what a correct
text-mode read of the file would yield. -/
structure LogFile where
  name : List Char
  textLines : List (List Char)

/-- `read_log_file`: the file is opened with `open(log_file, 'rb')`; when the
name ends in `.gz` the handle is replaced by `gzip.open(log_file, 'rt')`, so
iteration yields decompressed `str` lines; otherwise iteration stays on the
binary handle and yields `bytes` lines. -/
def read_log_file (f : LogFile) : List Line :=
  if f.name.reverse.take 3 = ['z', 'g', '.'] then f.textLines.map Line.text
  else f.textLines.map Line.bytes

/-- The aggregation dictionary `statistics`: a `defaultdict(list)` keyed by
URL, modelled as an insertion-ordered association list with distinct keys. -/
abbrev Stats := List (List Char × List ℚ)

/-- `statistics[url].append(t)` on a `defaultdict(list)`: append to the
existing entry, or create a new entry at the end (Python dict insertion
order). -/
def addTime (stats : Stats) (url : List Char) (t : ℚ) : Stats :=
  match stats with
  | [] => [(url, [t])]
  | (u, ts) :: rest =>
    if u = url then (u, ts ++ [t]) :: rest
    else (u, ts) :: addTime rest url t

/-- One iteration of the `for log in logs` loop in `process_logs`, acting on
the accumulator `(statistics, total_time, errors_count)`. -/
def processStep (acc : Stats × ℚ × ℕ) (l : Line) : Stats × ℚ × ℕ :=
  match parse_log_line l with
  | .ok r => (addTime acc.1 r.url r.request_time, acc.2.1 + r.request_time, acc.2.2)
  | .error _ => (acc.1, acc.2.1, acc.2.2 + 1)

/-- `process_logs(logs)`: fold the loop, then evaluate
`errors_count / len(logs) > ERRORS_THRESHOLD`.  The division is evaluated
first, so an empty `logs` raises `ZeroDivisionError`; the code raises
`RuntimeError` when the comparison holds, else returns
`(statistics, total_time)`. -/
def process_logs (logs : List Line) (threshold : ℚ) : Except PyError (Stats × ℚ) :=
  let acc := logs.foldl processStep ([], 0, 0)
  if logs.length = 0 then .error .zeroDivisionError
  else if (acc.2.2 : ℚ) / (logs.length : ℚ) > threshold then .error .runtimeError
  else .ok (acc.1, acc.2.1)

/-- `true` when `parse_log_line` raises on the line. -/
def lineFails (l : Line) : Bool := !(exOk (parse_log_line l))

/-- Number of lines of `logs` on which `parse_log_line` raises; the value
`errors_count` holds after the `process_logs` loop. -/
def errorCount (logs : List Line) : ℕ := logs.countP lineFails

/-- One row of the generated report (the dict literal in `generate_report`). -/
structure ReportRow where
  url : List Char
  count : ℕ
  count_perc : ℚ
  time_sum : ℚ
  time_perc : ℚ
  time_avg : ℚ
  time_max : ℚ
  time_med : ℚ
deriving Repr, DecidableEq

/-- The ranking key of `heapq.nlargest`: `lambda x: sum(x[1])`. -/
def statKey (e : List Char × List ℚ) : ℚ := e.2.sum

/-- Insertion step of a stable descending sort by `statKey`: an element is
placed before the first element whose key is not strictly greater, so
equal-key elements keep their original relative order (CPython's `sorted`
with `reverse=True` is stable). -/
def insertDesc (e : List Char × List ℚ) : Stats → Stats
  | [] => [e]
  | f :: fs =>
    if statKey e < statKey f then f :: insertDesc e fs
    else e :: f :: fs

/-- Stable descending sort by `statKey`. -/
def sortStatsDesc (l : Stats) : Stats := l.foldr insertDesc []

/-- `heapq.nlargest(n, statistics.items(), key=lambda x: sum(x[1]))`:
documented as equivalent to `sorted(iterable, key=key, reverse=True)[:n]`
(stable for equal keys). -/
def pyNlargest (n : ℕ) (l : Stats) : Stats := (sortStatsDesc l).take n

/-- Insertion step of a stable ascending sort (Python `sorted`). -/
def insertAsc (x : ℚ) : List ℚ → List ℚ
  | [] => [x]
  | y :: ys => if y < x then y :: insertAsc x ys else x :: y :: ys

/-- Python `sorted(times)`: a new, stably ascending-sorted list. -/
def pySortedQ (l : List ℚ) : List ℚ := l.foldr insertAsc []

/-- Python `max(times)`; on ties the first maximal element is kept.
`max([])` raises `ValueError`, but every caller reaches it only with a
nonempty list (an earlier division raises first on an empty one). -/
def pyMaxQ (l : List ℚ) : ℚ :=
  match l with
  | [] => 0
  | x :: xs => xs.foldl (fun a b => if a < b then b else a) x

/-- The row dict built in the `generate_report` loop for an entry
`(url, times)`, with `nStats = len(statistics)` and `total = total_time`:
`count_perc = len(times)/len(statistics)`, `time_perc = sum(times)/total_time`,
`time_avg = sum(times)/len(times)`, `time_med = sorted(times)[len(times)//2]`. -/
def mkRow (nStats : ℕ) (total : ℚ) (e : List Char × List ℚ) : ReportRow where
  url := e.1
  count := e.2.length
  count_perc := (e.2.length : ℚ) / (nStats : ℚ)
  time_sum := e.2.sum
  time_perc := e.2.sum / total
  time_avg := e.2.sum / (e.2.length : ℚ)
  time_max := pyMaxQ e.2
  time_med := (pySortedQ e.2).getD (e.2.length / 2) 0

/-- Building one row can raise: the dict literal evaluates its divisions in
source order, so `len(statistics) == 0` raises first (`count_perc`), then
`total_time == 0` (`time_perc`), then `len(times) == 0` (`time_avg`), each a
`ZeroDivisionError`.  Otherwise the row of `mkRow` is produced. -/
def buildRow (nStats : ℕ) (total : ℚ) (e : List Char × List ℚ) :
    Except PyError ReportRow :=
  if nStats = 0 then .error .zeroDivisionError
  else if total = 0 then .error .zeroDivisionError
  else if e.2.length = 0 then .error .zeroDivisionError
  else .ok (mkRow nStats total e)

/-- The `for url, times in sorted_stats` loop: rows are appended in order and
the first raised exception aborts the whole call. -/
def buildRows (nStats : ℕ) (total : ℚ) : Stats → Except PyError (List ReportRow)
  | [] => .ok []
  | e :: es =>
    match buildRow nStats total e with
    | .error err => .error err
    | .ok r =>
      match buildRows nStats total es with
      | .error err => .error err
      | .ok rs => .ok (r :: rs)

/-- `generate_report(statistics, total_time, report_size)`. -/
def generate_report (stats : Stats) (total : ℚ) (reportSize : ℕ) :
    Except PyError (List ReportRow) :=
  buildRows stats.length total (pyNlargest reportSize stats)

/-- The fixed filename test `f.startswith("nginx-access-ui.log")`. -/
def logFileStart : List Char := "nginx-access-ui.log".toList

/-- Python `s.startswith(p)`. -/
def startsWithChars (p s : List Char) : Bool := decide (s.take p.length = p)

/-- Python `<` on strings: lexicographic comparison by code point. -/
def listCharLt : List Char → List Char → Bool
  | _, [] => false
  | [], _ :: _ => true
  | a :: as, b :: bs =>
    if a < b then true else if b < a then false else listCharLt as bs

/-- Python `max(strings)` (nonempty input; keeps the first maximal element). -/
def pyMaxStr (l : List (List Char)) : List Char :=
  match l with
  | [] => []
  | x :: xs => xs.foldl (fun a b => if listCharLt a b then b else a) x

/-- `get_latest_log_file` after a successful `os.listdir`: filter by the
fixed name start, return `None` when nothing matches, else the
lexicographic maximum. -/
def get_latest_log_file (files : List (List Char)) : Option (List Char) :=
  let logFiles := files.filter (fun f => startsWithChars logFileStart f)
  if logFiles.isEmpty then none else some (pyMaxStr logFiles)

/-- The run's environment: the log directory's listing (`none` models a
missing directory, where `os.listdir` raises `FileNotFoundError`), and the
text content of each file by name. -/
structure Env where
  dirListing : Option (List (List Char))
  fileTextLines : List Char → List (List Char)

/-- Outcome of one run of `main` (report writing, pure I/O, is out of
scope): a completed report, the clean early return when no log file
matches, or an uncaught exception. -/
inductive RunResult where
  | completed (rows : List ReportRow)
  | noLogFiles
  | crash (e : PyError)
deriving DecidableEq

/-- `main()` from log-file selection onward: `os.listdir` raises uncaught
when the directory is missing; `get_latest_log_file` returning `None` makes
`main` log and return early; any exception out of `process_logs` or
`generate_report` is uncaught. -/
def pyMain (env : Env) (reportSize : ℕ) (threshold : ℚ) : RunResult :=
  match env.dirListing with
  | none => .crash .fileNotFoundError
  | some files =>
    match get_latest_log_file files with
    | none => .noLogFiles
    | some nm =>
      let logs := read_log_file ⟨nm, env.fileTextLines nm⟩
      match process_logs logs threshold with
      | .error e => .crash e
      | .ok (stats, total) =>
        match generate_report stats total reportSize with
        | .error e => .crash e
        | .ok rows => .completed rows

/-- A well-formed sample line: 9 space-separated fields, URL at index 7,
request time `0.5` last. -/
def sampleChars : List Char := "a b c d e f g /u 0.5".toList

/-- `sampleChars` as a `str` line. -/
def goodLine : Line := .text sampleChars

/-- A line with a single field: `parts[7]` raises `IndexError`. -/
def badLine : Line := .text "oops".toList

/-! ### A heap-threading view of `generate_report`

To state that `generate_report` never mutates the aggregation state, the
Python heap is made explicit: each per-URL `times` list is an object living
in a heap cell and `statistics` maps URLs to cell references.  Every source
operation is modelled with its documented effect on the heap:
`heapq.nlargest` and `sorted(times)` allocate fresh lists and leave their
inputs as they were, while `sum`, `max` and `len` are pure reads.  An
in-place call such as `times.sort()` would have to be modelled as a heap
write; the source contains none, which is exactly what the frame theorem
certifies. -/

/-- The heap: cell `i` holds one Python list object of request times. -/
abbrev Heap := List (List ℚ)

/-- `statistics` with its `times` lists replaced by heap references. -/
abbrev StatsH := List (List Char × ℕ)

/-- Dereference one cell. -/
def heapGet (h : Heap) (r : ℕ) : List ℚ := h.getD r []

/-- Dereference a whole statistics map. -/
def derefStats (h : Heap) (σ : StatsH) : Stats :=
  σ.map (fun e => (e.1, heapGet h e.2))

/-- `insertDesc` acting on references: the sort key reads the heap. -/
def insertDescH (h : Heap) (e : List Char × ℕ) : StatsH → StatsH
  | [] => [e]
  | f :: fs =>
    if statKey (e.1, heapGet h e.2) < statKey (f.1, heapGet h f.2) then
      f :: insertDescH h e fs
    else e :: f :: fs

/-- The stable descending sort on references. -/
def sortStatsDescH (h : Heap) (l : StatsH) : StatsH := l.foldr (insertDescH h) []

/-- `heapq.nlargest` on references: reads the heap, writes nothing. -/
def pyNlargestH (n : ℕ) (h : Heap) (l : StatsH) : StatsH :=
  (sortStatsDescH h l).take n

/-- The report loop threading the heap through each row construction.
`buildRow` only reads the dereferenced list (`sorted(times)` allocates);
the heap passed on is the one received. -/
def buildRowsH (nStats : ℕ) (total : ℚ) :
    StatsH → Heap → Except PyError (List ReportRow) × Heap
  | [], h => (.ok [], h)
  | e :: es, h =>
    match buildRow nStats total (e.1, heapGet h e.2) with
    | .error err => (.error err, h)
    | .ok r =>
      match buildRowsH nStats total es h with
      | (.error err, h2) => (.error err, h2)
      | (.ok rs, h2) => (.ok (r :: rs), h2)

/-- `generate_report` over the explicit heap. -/
def generate_reportH (h : Heap) (σ : StatsH) (total : ℚ) (reportSize : ℕ) :
    Except PyError (List ReportRow) × Heap :=
  buildRowsH σ.length total (pyNlargestH reportSize h σ) h

theorem derefStats_cons (h : Heap) (e : List Char × ℕ) (es : StatsH) :
    derefStats h (e :: es) = (e.1, heapGet h e.2) :: derefStats h es := rfl

theorem insertDesc_cons (e f : List Char × List ℚ) (fs : Stats) :
    insertDesc e (f :: fs) =
      if statKey e < statKey f then f :: insertDesc e fs else e :: f :: fs := rfl

theorem derefStats_insertDescH (h : Heap) (e : List Char × ℕ) (l : StatsH) :
    derefStats h (insertDescH h e l) =
      insertDesc (e.1, heapGet h e.2) (derefStats h l) := by
  induction l with
  | nil => rfl
  | cons f fs ih =>
    unfold insertDescH
    by_cases hc : statKey (e.1, heapGet h e.2) < statKey (f.1, heapGet h f.2)
    · rw [if_pos hc, derefStats_cons, ih, derefStats_cons, insertDesc_cons, if_pos hc]
    · rw [if_neg hc, derefStats_cons, derefStats_cons, insertDesc_cons, if_neg hc]

theorem derefStats_sortH (h : Heap) (l : StatsH) :
    derefStats h (sortStatsDescH h l) = sortStatsDesc (derefStats h l) := by
  induction l with
  | nil => rfl
  | cons e es ih =>
    show derefStats h (insertDescH h e (sortStatsDescH h es)) = _
    rw [derefStats_insertDescH, ih, derefStats_cons]
    rfl

theorem buildRowsH_eq (nStats : ℕ) (total : ℚ) (l : StatsH) (h : Heap) :
    buildRowsH nStats total l h = (buildRows nStats total (derefStats h l), h) := by
  induction l with
  | nil => rfl
  | cons e es ih =>
    rw [derefStats_cons]
    unfold buildRowsH buildRows
    cases hb : buildRow nStats total (e.1, heapGet h e.2) with
    | error err => simp [hb]
    | ok r =>
      rw [ih]
      cases hrest : buildRows nStats total (derefStats h es) with
      | error err => simp [hb, hrest]
      | ok rs => simp [hb, hrest]

theorem generate_reportH_eq (h : Heap) (σ : StatsH) (total : ℚ) (N : ℕ) :
    generate_reportH h σ total N = (generate_report (derefStats h σ) total N, h) := by
  unfold generate_reportH generate_report
  rw [buildRowsH_eq]
  have hlen : σ.length = (derefStats h σ).length := (List.length_map _ _).symm
  have hsel : derefStats h (pyNlargestH N h σ) = pyNlargest N (derefStats h σ) := by
    unfold pyNlargestH pyNlargest
    rw [← derefStats_sortH]
    unfold derefStats
    rw [List.map_take]
  rw [hlen, hsel]

/-! ### Properties of the descending selection sort behind `pyNlargest` -/

theorem insertDesc_perm (e : List Char × List ℚ) (l : Stats) :
    (insertDesc e l).Perm (e :: l) := by
  induction l with
  | nil => exact .refl _
  | cons f fs ih =>
    unfold insertDesc
    split
    · exact (ih.cons f).trans (List.Perm.swap e f fs)
    · exact .refl _

theorem sortStatsDesc_perm (l : Stats) : (sortStatsDesc l).Perm l := by
  induction l with
  | nil => exact .refl _
  | cons x xs ih =>
    exact (insertDesc_perm x (sortStatsDesc xs)).trans (ih.cons x)

theorem insertDesc_sorted (e : List Char × List ℚ) (l : Stats)
    (h : l.Pairwise (fun a b => statKey b ≤ statKey a)) :
    (insertDesc e l).Pairwise (fun a b => statKey b ≤ statKey a) := by
  induction l with
  | nil => simp [insertDesc]
  | cons f fs ih =>
    rw [List.pairwise_cons] at h
    obtain ⟨hf, hfs⟩ := h
    unfold insertDesc
    split
    · rename_i hlt
      refine List.pairwise_cons.mpr ⟨?_, ih hfs⟩
      intro x hx
      rcases List.mem_cons.mp ((insertDesc_perm e fs).mem_iff.mp hx) with hx | hx
      · subst hx; exact le_of_lt hlt
      · exact hf x hx
    · rename_i hge
      have hge' := le_of_not_lt hge
      refine List.pairwise_cons.mpr ⟨?_, List.pairwise_cons.mpr ⟨hf, hfs⟩⟩
      intro x hx
      rcases List.mem_cons.mp hx with hx | hx
      · subst hx; exact hge'
      · exact (hf x hx).trans hge'

theorem sortStatsDesc_sorted (l : Stats) :
    (sortStatsDesc l).Pairwise (fun a b => statKey b ≤ statKey a) := by
  induction l with
  | nil => simp [sortStatsDesc]
  | cons x xs ih => exact insertDesc_sorted x (sortStatsDesc xs) ih

theorem mem_pyNlargest {e : List Char × List ℚ} {n : ℕ} {l : Stats}
    (h : e ∈ pyNlargest n l) : e ∈ l :=
  (sortStatsDesc_perm l).mem_iff.mp (List.take_subset n _ h)

/-! ### Report building succeeds when no division is by zero -/

theorem buildRows_ok (nStats : ℕ) (total : ℚ) (l : Stats)
    (h0 : nStats ≠ 0) (h2 : total ≠ 0) (h1 : ∀ e ∈ l, e.2 ≠ []) :
    buildRows nStats total l = .ok (l.map (mkRow nStats total)) := by
  induction l with
  | nil => rfl
  | cons e es ih =>
    have he : e.2 ≠ [] := h1 e (List.mem_cons_self e es)
    have hlen : ¬ e.2.length = 0 := by
      simpa using he
    rw [List.map_cons]
    unfold buildRows buildRow
    rw [if_neg h0, if_neg h2, if_neg hlen,
      ih (fun x hx => h1 x (List.mem_cons_of_mem e hx))]

theorem generate_report_eq (stats : Stats) (total : ℚ) (N : ℕ)
    (h1 : ∀ e ∈ stats, e.2 ≠ []) (h2 : total ≠ 0) :
    generate_report stats total N =
      .ok ((pyNlargest N stats).map (mkRow stats.length total)) := by
  cases stats with
  | nil => simp [generate_report, pyNlargest, sortStatsDesc, buildRows]
  | cons s ss =>
    exact buildRows_ok _ _ _ (by simp) h2
      (fun e he => h1 e (mem_pyNlargest he))

/-! ### The error counter of the aggregation loop -/

theorem errorCount_cons (l : Line) (ls : List Line) :
    errorCount (l :: ls) = errorCount ls + (if lineFails l then 1 else 0) := by
  unfold errorCount
  rw [List.countP_cons]

theorem foldl_processStep_errs (logs : List Line) (s : Stats) (t : ℚ) (e : ℕ) :
    (logs.foldl processStep (s, t, e)).2.2 = e + errorCount logs := by
  induction logs generalizing s t e with
  | nil => simp [errorCount]
  | cons l ls ih =>
    rw [List.foldl_cons, errorCount_cons]
    cases hp : parse_log_line l with
    | ok r =>
      have hstep : processStep (s, t, e) l =
          (addTime s r.url r.request_time, t + r.request_time, e) := by
        simp [processStep, hp]
      have hfail : lineFails l = false := by simp [lineFails, exOk, hp]
      rw [hstep, ih, hfail]
      simp
    | error err =>
      have hstep : processStep (s, t, e) l = (s, t, e + 1) := by
        simp [processStep, hp]
      have hfail : lineFails l = true := by simp [lineFails, exOk, hp]
      rw [hstep, ih, hfail]
      simp
      omega

/-! ### The claims -/

/-- Claim C1: the spec's LogSource is meant to yield text lines for every
selected file, decompressing `.gz` names and reading other names as plain
text.  The code opens every file with `open(log_file, 'rb')` and only the
`.gz` branch replaces the handle, so a plain log file is iterated as `bytes`
lines, on which `line.split(' ')` raises `TypeError`: the text-line contract
holds for `.gz` files only.  This theorem evaluates the code at both kinds
of file name over the same content. -/
theorem read_plain_file_yields_bytes :
    read_log_file ⟨"nginx-access-ui.log-20170630".toList, [sampleChars]⟩
        = [Line.bytes sampleChars]
    ∧ parse_log_line (Line.bytes sampleChars) = .error .typeError
    ∧ read_log_file ⟨"nginx-access-ui.log-20170630.gz".toList, [sampleChars]⟩
        = [Line.text sampleChars]
    ∧ parse_log_line (Line.text sampleChars) = .ok ⟨"/u".toList, 1 / 2⟩ := by
  with_unfolding_all decide

/-- Claim C2: on a consumed, nonempty line sequence the aggregation aborts
with the run-level `RuntimeError` exactly when `error_count / total_lines`
is strictly greater than the configured threshold, and returns the
aggregation result exactly when the rate is less than or equal to it (in
particular, equality does not abort). -/
theorem process_logs_threshold_boundary (logs : List Line) (θ : ℚ) (h : logs ≠ []) :
    (process_logs logs θ = .error .runtimeError ↔
      θ < (errorCount logs : ℚ) / (logs.length : ℚ))
    ∧ (exOk (process_logs logs θ) = true ↔
      (errorCount logs : ℚ) / (logs.length : ℚ) ≤ θ) := by
  have hlen : ¬ logs.length = 0 := by simpa using h
  have hacc : (logs.foldl processStep ([], 0, 0)).2.2 = errorCount logs := by
    rw [foldl_processStep_errs]
    omega
  simp only [process_logs]
  rw [if_neg hlen, hacc]
  by_cases hc : θ < (errorCount logs : ℚ) / (logs.length : ℚ)
  · rw [if_pos hc]
    exact ⟨iff_of_true rfl hc, iff_of_false (by simp [exOk]) (not_le.mpr hc)⟩
  · rw [if_neg hc]
    exact ⟨iff_of_false (by simp) hc, iff_of_true rfl (not_lt.mp hc)⟩

/-- Witness for C2: a two-line log with one parse failure and threshold 1/2
sits exactly at the boundary (`error_rate == threshold`) and the run
proceeds. -/
theorem process_logs_threshold_boundary_witness :
    exOk (process_logs [goodLine, badLine] (1 / 2)) = true := by
  have h := process_logs_threshold_boundary [goodLine, badLine] (1 / 2) (by simp)
  exact h.2.mpr (by with_unfolding_all decide)

/-- Counterexample to claim C3: for the even-length time list `[1, 2]` the
reported `time_med` is `2`, the element at index `len // 2 = 1` of the
ascending-sorted list (the upper middle), while the claim's lower-middle
index `n/2 - 1` holds `1`. -/
theorem report_median_upper_middle_cx :
    Except.map (List.map ReportRow.time_med)
        (generate_report [("/a".toList, [1, 2])] 3 1) = .ok [2]
    ∧ (pySortedQ [1, 2]).getD (2 / 2 - 1) 0 = 1
    ∧ (2 : ℚ) ≠ 1 := by
  with_unfolding_all decide

/-- Claim C3 as amended: every reported `time_med` is the element at index
`len(times) // 2` of the ascending-sorted time list of that row's URL — for
even lengths the upper-middle element, not the lower-middle one and not the
interpolated median. -/
theorem report_median_is_upper_middle (stats : Stats) (total : ℚ) (N : ℕ)
    (h1 : ∀ e ∈ stats, e.2 ≠ []) (h2 : total ≠ 0) :
    ∃ rows, generate_report stats total N = .ok rows ∧
      ∀ r ∈ rows, ∃ ts, (r.url, ts) ∈ stats ∧
        r.time_med = (pySortedQ ts).getD (ts.length / 2) 0 := by
  refine ⟨_, generate_report_eq stats total N h1 h2, ?_⟩
  intro r hr
  rw [List.mem_map] at hr
  obtain ⟨e, he, rfl⟩ := hr
  refine ⟨e.2, ?_, rfl⟩
  show (e.1, e.2) ∈ stats
  rw [Prod.mk.eta]
  exact mem_pyNlargest he

/-- Witness for the amended C3 at an even-length list. -/
theorem report_median_is_upper_middle_witness :
    (∀ e ∈ ([("/a".toList, [1, 2])] : Stats), e.2 ≠ []) ∧ (3 : ℚ) ≠ 0 ∧
    ∃ rows, generate_report [("/a".toList, [1, 2])] 3 1 = .ok rows ∧
      ∀ r ∈ rows, ∃ ts, (r.url, ts) ∈ ([("/a".toList, [1, 2])] : Stats) ∧
        r.time_med = (pySortedQ ts).getD (ts.length / 2) 0 :=
  ⟨by decide, by norm_num,
    report_median_is_upper_middle [("/a".toList, [1, 2])] 3 1 (by decide) (by norm_num)⟩

/-- Claim C4: the spec names a distinct `EmptyLogFile` failure for
`total_lines == 0`; the code instead evaluates
`errors_count / len(logs)` and an empty input raises a bare
`ZeroDivisionError`.  This theorem evaluates the code at the failing
input. -/
theorem process_logs_empty_zero_division :
    process_logs [] (1 / 10) = .error .zeroDivisionError := by
  with_unfolding_all decide

/-- Counterexample to claim C5: with `total_time = 0` and one URL the report
build raises `ZeroDivisionError` instead of defining `time_perc` as 0.0. -/
theorem time_perc_zero_total_cx :
    generate_report [("/a".toList, [0])] 0 1 = .error .zeroDivisionError := by
  with_unfolding_all decide

/-- Claim C5 as amended: when `total_time = 0` and at least one URL is
selected, `generate_report` fails with a division-by-zero error; when
`total_time ≠ 0`, every row's `time_perc` equals `time_sum / total_time`. -/
theorem time_perc_division_behavior (stats : Stats) (total : ℚ) (N : ℕ)
    (h1 : ∀ e ∈ stats, e.2 ≠ []) :
    (total = 0 → stats ≠ [] → 1 ≤ N →
        generate_report stats total N = .error .zeroDivisionError)
    ∧ (total ≠ 0 → ∃ rows, generate_report stats total N = .ok rows ∧
        ∀ r ∈ rows, ∃ ts, (r.url, ts) ∈ stats ∧ r.time_perc = ts.sum / total) := by
  constructor
  · intro h0 hne hN
    have hsl : 0 < stats.length := List.length_pos.mpr hne
    have hlen : 0 < (pyNlargest N stats).length := by
      rw [pyNlargest, List.length_take, (sortStatsDesc_perm stats).length_eq]
      exact lt_min (by omega) hsl
    obtain ⟨e, es, hsel⟩ := List.exists_cons_of_ne_nil (List.ne_nil_of_length_pos hlen)
    unfold generate_report
    rw [hsel]
    unfold buildRows buildRow
    rw [if_neg (by omega : ¬ stats.length = 0), if_pos h0]
  · intro h2
    refine ⟨_, generate_report_eq stats total N h1 h2, ?_⟩
    intro r hr
    rw [List.mem_map] at hr
    obtain ⟨e, he, rfl⟩ := hr
    refine ⟨e.2, ?_, rfl⟩
    show (e.1, e.2) ∈ stats
    rw [Prod.mk.eta]
    exact mem_pyNlargest he

/-- Witness for the amended C5: the zero-total branch at a concrete input. -/
theorem time_perc_division_behavior_witness :
    generate_report [("/a".toList, [2])] 0 1 = .error .zeroDivisionError := by
  have h := (time_perc_division_behavior [("/a".toList, [2])] 0 1 (by decide)).1
  exact h rfl (by decide) (by decide)

/-- Counterexample to claim C6: a line whose field at position 7 is empty
(two consecutive spaces) parses successfully with an empty URL; an empty URL
field does not cause a parse error. -/
theorem parse_empty_url_ok :
    parse_log_line (Line.text "a b c d e f g  0.5".toList) = .ok ⟨[], 1 / 2⟩ := by
  with_unfolding_all decide

/-- Claim C6 as amended: a text line fails to parse exactly when it has
fewer than 8 single-space-separated fields (so position 7 is missing) or its
last field is not a valid float — an empty URL field is accepted — and every
failing line contributes nothing to the statistics or total and increments
only the error counter. -/
theorem parse_error_condition (cs : List Char) (acc : Stats × ℚ × ℕ) (l : Line) :
    (exOk (parse_log_line (Line.text cs)) = false ↔
      (splitChar ' ' cs).length < 8 ∨ pyFloat ((splitChar ' ' cs).getLastD []) = none)
    ∧ (exOk (parse_log_line l) = false →
        processStep acc l = (acc.1, acc.2.1, acc.2.2 + 1)) := by
  constructor
  · have hdef : parse_log_line (Line.text cs) =
        (if (splitChar ' ' cs).length < 8 then .error .indexError
         else match pyFloat ((splitChar ' ' cs).getLastD []) with
           | none => .error .valueError
           | some t => .ok ⟨(splitChar ' ' cs).getD 7 [], t⟩) := rfl
    rw [hdef]
    by_cases hl : (splitChar ' ' cs).length < 8
    · rw [if_pos hl]
      simp [exOk, hl]
    · rw [if_neg hl]
      cases hf : pyFloat ((splitChar ' ' cs).getLastD []) with
      | none => simp [exOk, hl, hf]
      | some t => simp [exOk, hl, hf]
  · intro hfail
    unfold processStep
    cases hp : parse_log_line l with
    | ok r => simp [exOk, hp] at hfail
    | error err => simp [hp]

/-- Witness for the amended C6: the single-field line increments only the
error counter. -/
theorem parse_error_condition_witness :
    processStep ([], 0, 0) badLine = ([], 0, 1) := by
  have h := (parse_error_condition "oops".toList ([], 0, 0) badLine).2
  exact h (by with_unfolding_all decide)

/-- Counterexample to claim C7: an aggregation result with `total_time = 0`
(every request took 0.0 seconds) makes `generate_report` raise instead of
returning `min(N, #URLs) = 1` row. -/
theorem top_n_zero_total_cx :
    generate_report [("/b".toList, [0, 0])] 0 2 = .error .zeroDivisionError := by
  with_unfolding_all decide

/-- Claim C7 as amended: for `total_time ≠ 0` (and the nonempty per-URL
lists every aggregation result produces), the report has exactly
`min(N, #URLs)` rows, they are the URLs of greatest `time_sum` (every
unselected entry's key is ≤ every selected one's), and rows are ordered with
descending `time_sum`. -/
theorem generate_report_top_n (stats : Stats) (total : ℚ) (N : ℕ)
    (h1 : ∀ e ∈ stats, e.2 ≠ []) (h2 : total ≠ 0) :
    ∃ sel rest : Stats, (sel ++ rest).Perm stats ∧
      generate_report stats total N = .ok (sel.map (mkRow stats.length total)) ∧
      sel.length = min N stats.length ∧
      (∀ a ∈ sel, ∀ b ∈ rest, statKey b ≤ statKey a) ∧
      (sel.map (mkRow stats.length total)).Pairwise
        (fun r s => s.time_sum ≤ r.time_sum) := by
  have hp := sortStatsDesc_sorted stats
  have hsplit := List.take_append_drop N (sortStatsDesc stats)
  refine ⟨pyNlargest N stats, (sortStatsDesc stats).drop N, ?_,
    generate_report_eq stats total N h1 h2, ?_, ?_, ?_⟩
  · rw [pyNlargest, hsplit]
    exact sortStatsDesc_perm stats
  · rw [pyNlargest, List.length_take, (sortStatsDesc_perm stats).length_eq]
  · intro a ha b hb
    rw [← hsplit] at hp
    rw [pyNlargest] at ha
    exact (List.pairwise_append.mp hp).2.2 a ha b hb
  · have hsel : (pyNlargest N stats).Pairwise (fun a b => statKey b ≤ statKey a) := by
      rw [pyNlargest]
      exact List.Pairwise.sublist (List.take_sublist N _) hp
    exact hsel.map _ (fun a b hab => hab)

/-- Witness for the amended C7 on a two-URL aggregation result. -/
theorem generate_report_top_n_witness :
    (∀ e ∈ ([("/a".toList, [1, 3]), ("/b".toList, [2])] : Stats), e.2 ≠ []) ∧
    (6 : ℚ) ≠ 0 ∧
    ∃ sel rest : Stats,
      (sel ++ rest).Perm ([("/a".toList, [1, 3]), ("/b".toList, [2])] : Stats) ∧
      generate_report [("/a".toList, [1, 3]), ("/b".toList, [2])] 6 2 =
        .ok (sel.map (mkRow 2 6)) ∧
      sel.length = min 2 2 ∧
      (∀ a ∈ sel, ∀ b ∈ rest, statKey b ≤ statKey a) ∧
      (sel.map (mkRow 2 6)).Pairwise (fun r s => s.time_sum ≤ r.time_sum) :=
  ⟨by decide, by norm_num,
    generate_report_top_n [("/a".toList, [1, 3]), ("/b".toList, [2])] 6 2
      (by decide) (by norm_num)⟩

/-- Counterexample to claim C8: a missing log directory makes `os.listdir`
raise `FileNotFoundError`, which nothing in `main` catches — the run crashes
rather than ending early. -/
theorem missing_log_dir_crash :
    pyMain ⟨none, fun _ => []⟩ 1 (1 / 10) = .crash .fileNotFoundError := rfl

/-- Claim C8 as amended: when the log directory exists but no file in it
starts with the fixed name, the run ends early and cleanly without a report;
the missing-directory half of the claim fails (see the counterexample). -/
theorem no_matching_log_ends_early (env : Env) (files : List (List Char))
    (N : ℕ) (θ : ℚ) (hdir : env.dirListing = some files)
    (hnone : ∀ f ∈ files, startsWithChars logFileStart f = false) :
    pyMain env N θ = RunResult.noLogFiles := by
  have hnil : files.filter (fun f => startsWithChars logFileStart f) = [] :=
    List.filter_eq_nil_iff.mpr (fun a ha => by simp [hnone a ha])
  have hfil : get_latest_log_file files = none := by
    unfold get_latest_log_file
    rw [hnil]
    rfl
  simp only [pyMain, hdir, hfil]

/-- Witness for the amended C8: a directory holding a single non-matching
file name. -/
theorem no_matching_log_ends_early_witness :
    pyMain ⟨some ["other.log".toList], fun _ => []⟩ 1 (1 / 10) =
      RunResult.noLogFiles :=
  no_matching_log_ends_early ⟨some ["other.log".toList], fun _ => []⟩
    ["other.log".toList] 1 (1 / 10) rfl (by decide)

/-- Claim C9: report building is idempotent and deterministic — running
`generate_report` a second time over the heap left by a first run, on the
same statistics references, total and report size, returns exactly the first
run's result (rows, order and heap). -/
theorem generate_report_idempotent (h : Heap) (σ : StatsH) (total : ℚ) (N : ℕ) :
    generate_reportH (generate_reportH h σ total N).2 σ total N =
      generate_reportH h σ total N := by
  rw [generate_reportH_eq h σ total N, generate_reportH_eq]

/-- Claim C10: `generate_report` leaves its inputs unchanged — the heap
holding every per-URL time list is returned exactly as received (nothing in
the loop writes a cell: `sorted` and `nlargest` allocate), and the result is
the pure function of the dereferenced statistics and total. -/
theorem generate_report_frame (h : Heap) (σ : StatsH) (total : ℚ) (N : ℕ) :
    (generate_reportH h σ total N).2 = h ∧
    (generate_reportH h σ total N).1 =
      generate_report (derefStats h σ) total N := by
  rw [generate_reportH_eq]
  exact ⟨rfl, rfl⟩

end LogAnalyzer
